import Mathlib

/-!
# Verification of the ChromeMCP relay and browser-agent state machines

Shallow embedding of the relay/correlation protocol of `mcp-server/index.js`
and of the CDP session / dispatcher / error-store layer of
`extension/background.js`, with theorems checking the specified properties.

## Part 1 — Relay Core (`mcp-server/index.js`)

The relay keeps the module globals

* `chromeClient` (the single peer channel; `null` when no peer is registered),
* `pendingRequests : Map<id, resolver>` (the Pending Table),
* `requestId` (the CorrelationId counter),
* `requestQueue` (the Submission Queue),
* `isProcessingQueue` (the single-flight latch of `processQueue`).

`callTool` pushes `{name, args, resolve}` and triggers `processQueue`, which
pops the head, allocates `++requestId`, installs a pending entry with a 30s
timer, sends the `tool_call` message and awaits the inner promise; the
inner promise is resolved by the matching `tool_result`, the timer, a
synchronous send failure, or the close handler which resolves every pending
entry with `{error: 'Connection closed'}` and clears the table (it does not
touch `requestQueue`).

The tool name and arguments never influence the control flow of the relay,
so queued requests are modelled by the caller's submission index alone.
Wall-clock time is abstracted: the firing of the 30s call timer and of the
50ms inter-call delay timer are environment events.
-/

/-- The 30000 ms timeout installed for every dispatched call
(`setTimeout(..., 30000)` in `processQueue`). -/
def CALL_TIMEOUT_MS : Nat := 30000

/-- The 50 ms inter-call delay inserted between queue items
(`setTimeout(r, 50)` in `processQueue`). -/
def INTER_CALL_DELAY_MS : Nat := 50

/-- Outcome delivered to a `callTool` caller, mirroring the shapes resolved
by `processQueue` and the socket handlers. -/
inductive RResult
  /-- a `tool_result` payload forwarded by the peer (payload abstracted) -/
  | ok (v : Nat)
  /-- `{error: 'Not connected'}` -/
  | notConnected
  /-- `{error: 'Timeout'}` -/
  | timeoutErr
  /-- `{error: 'Connection closed'}` -/
  | connClosed
  /-- `{error: 'Send failed: ...'}` -/
  | sendFailed
deriving DecidableEq, Repr

/-- Events on the peer-channel wire, as seen by the relay: a `tool_call`
going out, and the moment a call stops being in flight (its `tool_result`
arrived, its timer fired, its send threw, or the channel closed). -/
inductive HEv
  | sent (id : Nat)
  | settled (id : Nat)
deriving DecidableEq, Repr

/-- Control point of `processQueue`: not running (`isProcessingQueue =
false`), suspended on the inner promise of an in-flight call, or suspended
on the 50ms inter-call delay. -/
inductive Ctl
  | idle
  | awaiting (id : Nat) (c : Nat)
  | delaying
deriving DecidableEq, Repr

/-- The relay's mutable state.  `queue` holds callers by submission index;
`submitted` counts `callTool` invocations; `resolutions` logs each call of a
caller's `resolve`; `hist` logs the peer-channel events. -/
structure RelayState where
  /-- `chromeClient !== null && chromeClient.readyState === OPEN` -/
  connected : Bool
  /-- `requestQueue` (callers by submission index) -/
  queue : List Nat
  /-- `pendingRequests` (correlation id ↦ caller) -/
  pending : List (Nat × Nat)
  /-- `requestId` -/
  nextId : Nat
  /-- number of `callTool` invocations so far -/
  submitted : Nat
  /-- log of caller resolutions, in order -/
  resolutions : List (Nat × RResult)
  /-- log of wire events -/
  hist : List HEv
  /-- control point of `processQueue` -/
  ctl : Ctl
deriving DecidableEq, Repr

/-- Environment events driving the relay. -/
inductive Ev
  /-- a new `callTool` (pushes the queue, triggers `processQueue`);
  `sendOk` tells whether the `chromeClient.send` attempted during the
  triggered drain (if any) throws -/
  | submit (sendOk : Bool)
  /-- a `tool_result{id, ...}` message from the peer -/
  | reply (id : Nat) (v : Nat)
  /-- the 30s timer of the in-flight call fires -/
  | timeoutFire
  /-- the registered peer's channel closes -/
  | disconnect
  /-- a peer registers (`chromeClient = ws`) -/
  | connect
  /-- the 50ms inter-call delay elapses -/
  | tick (sendOk : Bool)
deriving DecidableEq, Repr

/-- The loop exit / delay choice at the bottom of a `processQueue`
iteration: after resolving the caller, the loop re-checks the queue; if
empty it exits (`isProcessingQueue = false`), otherwise it suspends on the
50ms delay. -/
def afterResolve (s : RelayState) : RelayState :=
  if s.queue.isEmpty then { s with ctl := Ctl.idle } else { s with ctl := Ctl.delaying }

/-- One run of the `processQueue` loop from its top until it either sends a
`tool_call` and suspends on the inner promise, resolves a caller after a
send failure and suspends on the delay (or exits), or empties the queue and
exits.  The `continue` of the not-connected fast path stays inside the
loop, so that path recurses; `fuel` bounds the recursion by the queue
length. -/
def drainF : Nat → Bool → RelayState → RelayState
  | 0, _, s => s
  | Nat.succ fuel, sendOk, s =>
    match s.queue with
    | [] => { s with ctl := Ctl.idle }
    | c :: rest =>
      if s.connected then
        let id := s.nextId + 1
        if sendOk then
          { s with queue := rest, nextId := id,
                   pending := s.pending ++ [(id, c)],
                   hist := s.hist ++ [HEv.sent id],
                   ctl := Ctl.awaiting id c }
        else
          afterResolve { s with queue := rest, nextId := id,
                                resolutions := s.resolutions ++ [(c, RResult.sendFailed)] }
      else
        drainF fuel sendOk { s with queue := rest,
                                    resolutions := s.resolutions ++ [(c, RResult.notConnected)] }

/-- One environment event.  Each case mirrors the corresponding handler in
`mcp-server/index.js`; the microtask continuation of the inner promise is
folded into the event that resolves it, because no other handler can run in
between. -/
def step (s : RelayState) : Ev → RelayState
  | Ev.submit sendOk =>
    if s.ctl = Ctl.idle then
      drainF (s.queue ++ [s.submitted]).length sendOk
        { s with queue := s.queue ++ [s.submitted], submitted := s.submitted + 1 }
    else { s with queue := s.queue ++ [s.submitted], submitted := s.submitted + 1 }
  | Ev.reply id v =>
    match s.pending.find? (fun p => p.1 == id) with
    | none => s
    | some pc =>
      afterResolve
        { s with pending := s.pending.filter (fun p => p.1 != id),
                 hist := s.hist ++ [HEv.settled id],
                 resolutions := s.resolutions ++ [(pc.2, RResult.ok v)] }
  | Ev.timeoutFire =>
    match s.ctl with
    | Ctl.awaiting id c =>
      afterResolve
        { s with pending := s.pending.filter (fun p => p.1 != id),
                 hist := s.hist ++ [HEv.settled id],
                 resolutions := s.resolutions ++ [(c, RResult.timeoutErr)] }
    | _ => s
  | Ev.disconnect =>
    if s.connected then
      let s1 : RelayState :=
        { s with connected := false, pending := [],
                 hist := s.hist ++ s.pending.map (fun p => HEv.settled p.1),
                 resolutions := s.resolutions ++ s.pending.map (fun p => (p.2, RResult.connClosed)) }
      match s.ctl with
      | Ctl.awaiting _ _ => afterResolve s1
      | _ => s1
    else s
  | Ev.connect => { s with connected := true }
  | Ev.tick sendOk =>
    if s.ctl = Ctl.delaying then drainF s.queue.length sendOk s else s

/-- Initial relay state: no peer, empty queue and table, `requestId = 0`. -/
def initRelay : RelayState :=
  { connected := false, queue := [], pending := [], nextId := 0,
    submitted := 0, resolutions := [], hist := [], ctl := Ctl.idle }

/-- The relay state after a sequence of environment events. -/
def run (tr : List Ev) : RelayState := tr.foldl step initRelay

/-- Correlation ids currently in flight according to a wire log: ids that
were `sent` and not yet `settled`. -/
def openStep (acc : List Nat) : HEv → List Nat
  | HEv.sent id => acc ++ [id]
  | HEv.settled id => acc.filter (fun x => x != id)

/-- In-flight ids of a wire log. -/
def openCalls (h : List HEv) : List Nat := h.foldl openStep []

/-- Number of occurrences of caller `c` in a list of caller indices. -/
def cnt (l : List Nat) (c : Nat) : Nat := l.countP (fun x => x == c)

/-- Number of resolutions delivered to caller `c` in a resolution log. -/
def resCnt (l : List (Nat × RResult)) (c : Nat) : Nat := cnt (l.map Prod.fst) c

/-- Number of resolutions delivered to caller `c`. -/
def resCount (s : RelayState) (c : Nat) : Nat := resCnt s.resolutions c

/-- 1 when caller `c` has the in-flight call, else 0. -/
def awaitInd (s : RelayState) (c : Nat) : Nat :=
  match s.ctl with
  | Ctl.awaiting _ c' => if c' == c then 1 else 0
  | _ => 0

/-! ### Invariants of the relay -/

/-- Inductive invariant of the relay state machine. -/
structure InvP (s : RelayState) : Prop where
  /-- the Pending Table holds exactly the awaited call -/
  ctlPending : match s.ctl with
    | Ctl.awaiting id c => s.pending = [(id, c)]
    | _ => s.pending = []
  /-- every submitted caller is exactly once queued, in flight, or resolved -/
  counting : ∀ c, cnt s.queue c + awaitInd s c + resCount s c
      = (if c < s.submitted then 1 else 0)
  /-- no pending call without a registered peer -/
  connPending : s.connected = false → s.pending = []
  /-- wire log and Pending Table agree on in-flight ids -/
  histOpen : openCalls s.hist = s.pending.map Prod.fst
  /-- single-flight: every point of the wire log has at most one open call -/
  histOK : ∀ p, p <+: s.hist → (openCalls p).length ≤ 1
  /-- the queue is drained whenever `processQueue` is not running -/
  idleQueue : s.ctl = Ctl.idle → s.queue = []

/-- Facts holding between a resolution and the loop's next suspension. -/
structure PreQ (s : RelayState) : Prop where
  pendingNil : s.pending = []
  counting : ∀ c, cnt s.queue c + resCount s c = (if c < s.submitted then 1 else 0)
  histOpen : openCalls s.hist = []
  histOK : ∀ p, p <+: s.hist → (openCalls p).length ≤ 1

/-- Entry condition of `drainF`. -/
structure PreP (s : RelayState) extends PreQ s : Prop where
  ctlFlat : s.ctl = Ctl.idle ∨ s.ctl = Ctl.delaying

theorem openCalls_append (h h' : List HEv) :
    openCalls (h ++ h') = h'.foldl openStep (openCalls h) := by
  simp [openCalls, List.foldl_append]

theorem openCalls_sent (h : List HEv) (id : Nat) :
    openCalls (h ++ [HEv.sent id]) = openCalls h ++ [id] := by
  simp [openCalls_append, openStep]

theorem openCalls_settled (h : List HEv) (id : Nat) :
    openCalls (h ++ [HEv.settled id]) = (openCalls h).filter (fun x => x != id) := by
  simp [openCalls_append, openStep]

theorem histOK_snoc {h : List HEv} {e : HEv}
    (hh : ∀ p, p <+: h → (openCalls p).length ≤ 1)
    (he : (openCalls (h ++ [e])).length ≤ 1) :
    ∀ p, p <+: h ++ [e] → (openCalls p).length ≤ 1 := by
  intro p hp
  rcases List.prefix_concat_iff.mp hp with h1 | h2
  · subst h1; exact he
  · exact hh p h2

theorem cnt_nil (c : Nat) : cnt [] c = 0 := rfl

theorem cnt_cons (x : Nat) (l : List Nat) (c : Nat) :
    cnt (x :: l) c = cnt l c + (if x = c then 1 else 0) := by
  simp [cnt, List.countP_cons]

theorem cnt_append (l l' : List Nat) (c : Nat) :
    cnt (l ++ l') c = cnt l c + cnt l' c := by
  simp [cnt, List.countP_append]

theorem resCnt_append (l l' : List (Nat × RResult)) (c : Nat) :
    resCnt (l ++ l') c = resCnt l c + resCnt l' c := by
  simp [resCnt, cnt, List.countP_append]

theorem resCnt_singleton (c x : Nat) (r : RResult) :
    resCnt [(c, r)] x = if c = x then 1 else 0 := by
  simp [resCnt, cnt, List.countP_cons]

/-- Accounting: the queue head becomes the in-flight caller. -/
theorem shiftA {q : List Nat} {res : List (Nat × RResult)} {c x n : Nat}
    (h : cnt (c :: q) x + resCnt res x = if x < n then 1 else 0) :
    cnt q x + (if c = x then 1 else 0) + resCnt res x = if x < n then 1 else 0 := by
  rw [cnt_cons] at h; omega

/-- Accounting: the in-flight caller receives its resolution. -/
theorem shiftB {q : List Nat} {res : List (Nat × RResult)} {c x n : Nat} (r : RResult)
    (h : cnt q x + (if c = x then 1 else 0) + resCnt res x = if x < n then 1 else 0) :
    cnt q x + resCnt (res ++ [(c, r)]) x = if x < n then 1 else 0 := by
  rw [resCnt_append, resCnt_singleton]; omega

/-- Accounting: the queue head is resolved directly. -/
theorem shiftC {q : List Nat} {res : List (Nat × RResult)} {c x n : Nat} (r : RResult)
    (h : cnt (c :: q) x + resCnt res x = if x < n then 1 else 0) :
    cnt q x + resCnt (res ++ [(c, r)]) x = if x < n then 1 else 0 :=
  shiftB r (shiftA h)

@[simp] theorem afterResolve_queue (s : RelayState) : (afterResolve s).queue = s.queue := by
  unfold afterResolve; split <;> rfl

@[simp] theorem afterResolve_pending (s : RelayState) :
    (afterResolve s).pending = s.pending := by
  unfold afterResolve; split <;> rfl

@[simp] theorem afterResolve_resolutions (s : RelayState) :
    (afterResolve s).resolutions = s.resolutions := by
  unfold afterResolve; split <;> rfl

@[simp] theorem afterResolve_hist (s : RelayState) : (afterResolve s).hist = s.hist := by
  unfold afterResolve; split <;> rfl

@[simp] theorem afterResolve_connected (s : RelayState) :
    (afterResolve s).connected = s.connected := by
  unfold afterResolve; split <;> rfl

@[simp] theorem afterResolve_submitted (s : RelayState) :
    (afterResolve s).submitted = s.submitted := by
  unfold afterResolve; split <;> rfl

theorem afterResolve_ctl (s : RelayState) :
    (afterResolve s).ctl = Ctl.idle ∨ (afterResolve s).ctl = Ctl.delaying := by
  unfold afterResolve; split <;> simp

theorem afterResolve_ctl_idle (s : RelayState) :
    (afterResolve s).ctl = Ctl.idle → s.queue = [] := by
  unfold afterResolve; split <;> intro h
  · simp_all [List.isEmpty_iff]
  · simp_all

theorem awaitInd_flat {s : RelayState} (h : s.ctl = Ctl.idle ∨ s.ctl = Ctl.delaying)
    (c : Nat) : awaitInd s c = 0 := by
  rcases h with h | h <;> simp [awaitInd, h]

/-- The loop's exit/delay point establishes the invariant. -/
theorem afterResolve_inv (s : RelayState) (h : PreQ s) : InvP (afterResolve s) := by
  refine ⟨?_, ?_, ?_, ?_, ?_, ?_⟩
  · rcases afterResolve_ctl s with h1 | h1 <;> rw [h1] <;>
      simp [h.pendingNil]
  · intro c
    rw [awaitInd_flat (afterResolve_ctl s) c]
    have := h.counting c
    simp only [resCount, afterResolve_queue, afterResolve_resolutions,
      afterResolve_submitted] at *
    omega
  · intro _; simp [h.pendingNil]
  · simp [h.histOpen, h.pendingNil]
  · simpa using h.histOK
  · intro h1; simpa using afterResolve_ctl_idle s h1

theorem awaitInd_awaiting {s : RelayState} {id c : Nat} (h : s.ctl = Ctl.awaiting id c)
    (x : Nat) : awaitInd s x = if c = x then 1 else 0 := by
  simp [awaitInd, h]

/-- `PreP.counting` is the invariant's counting fact when no call is in
flight. -/
theorem PreQ.countingInv {s : RelayState} (hs : PreQ s)
    (hflat : s.ctl = Ctl.idle ∨ s.ctl = Ctl.delaying) (c : Nat) :
    cnt s.queue c + awaitInd s c + resCount s c = if c < s.submitted then 1 else 0 := by
  rw [awaitInd_flat hflat c]
  have := hs.counting c
  omega

/-- `processQueue`'s loop establishes the invariant at its next suspension
point, whichever branch it takes. -/
theorem drain_inv (fuel : Nat) (sendOk : Bool) :
    ∀ s : RelayState, s.queue.length ≤ fuel → PreP s → InvP (drainF fuel sendOk s) := by
  induction fuel with
  | zero =>
    intro s hfuel hs
    have hq : s.queue = [] := List.length_eq_zero.mp (Nat.le_zero.mp hfuel)
    refine ⟨?_, ?_, ?_, ?_, ?_, ?_⟩
    · rcases hs.ctlFlat with h1 | h1 <;> simp [drainF, h1, hs.pendingNil]
    · exact fun c => hs.toPreQ.countingInv hs.ctlFlat c
    · intro _; exact hs.pendingNil
    · simp [drainF, hs.histOpen, hs.pendingNil]
    · exact hs.histOK
    · intro _; exact hq
  | succ fuel ih =>
    intro s hfuel hs
    cases hq : s.queue with
    | nil =>
      simp only [drainF, hq]
      refine ⟨?_, ?_, ?_, ?_, ?_, ?_⟩
      · simpa using hs.pendingNil
      · intro c
        have hcnt := hs.counting c
        rw [hq] at hcnt
        simp only [resCount] at hcnt
        show cnt [] c + awaitInd _ c + resCnt s.resolutions c = if c < s.submitted then 1 else 0
        simp only [awaitInd]
        omega
      · intro _; simpa using hs.pendingNil
      · simpa [hs.pendingNil] using hs.histOpen
      · simpa using hs.histOK
      · intro _; simp [hq]
    | cons c rest =>
      simp only [drainF, hq]
      by_cases hc : s.connected
      · simp only [hc, if_true]
        cases sendOk with
        | true =>
          simp only [if_true]
          refine ⟨?_, ?_, ?_, ?_, ?_, ?_⟩
          · simp [hs.pendingNil]
          · intro x
            have hcnt := hs.counting x
            rw [hq] at hcnt
            simp only [resCount] at hcnt
            show cnt rest x + awaitInd _ x + resCnt s.resolutions x = _
            simp only [awaitInd, beq_iff_eq]
            exact shiftA hcnt
          · intro h1; simp [hc] at h1
          · simp [openCalls_sent, hs.histOpen, hs.pendingNil]
          · exact histOK_snoc hs.histOK (by simp [openCalls_sent, hs.histOpen])
          · intro h1; simp at h1
        | false =>
          simp only [Bool.false_eq_true, if_false]
          apply afterResolve_inv
          refine ⟨?_, ?_, ?_, ?_⟩
          · exact hs.pendingNil
          · intro x
            have hcnt := hs.counting x
            rw [hq] at hcnt
            exact shiftC RResult.sendFailed hcnt
          · simpa using hs.histOpen
          · simpa using hs.histOK
      · simp only [hc, Bool.false_eq_true, if_false]
        apply ih
        · have h2 : s.queue.length ≤ fuel + 1 := hfuel
          rw [hq] at h2
          simpa using Nat.le_of_succ_le_succ h2
        · refine ⟨⟨?_, ?_, ?_, ?_⟩, ?_⟩
          · exact hs.pendingNil
          · intro x
            have hcnt := hs.counting x
            rw [hq] at hcnt
            exact shiftC RResult.notConnected hcnt
          · simpa using hs.histOpen
          · simpa using hs.histOK
          · exact hs.ctlFlat

theorem cnt_singleton (x c : Nat) : cnt [x] c = if x = c then 1 else 0 := by
  simp [cnt, List.countP_cons]

/-- Accounting: a fresh caller is appended to the queue. -/
theorem count_submit {q : List Nat} {res : List (Nat × RResult)} {n c : Nat}
    (h : cnt q c + resCnt res c = if c < n then 1 else 0) :
    cnt (q ++ [n]) c + resCnt res c = if c < n + 1 then 1 else 0 := by
  rw [cnt_append, cnt_singleton]
  split_ifs at h ⊢ <;> omega

/-- Accounting: a fresh caller is appended while a call is in flight. -/
theorem count_submit' {q : List Nat} {res : List (Nat × RResult)} {a n c : Nat}
    (h : cnt q c + a + resCnt res c = if c < n then 1 else 0) :
    cnt (q ++ [n]) c + a + resCnt res c = if c < n + 1 then 1 else 0 := by
  rw [cnt_append, cnt_singleton]
  split_ifs at h ⊢ <;> omega

theorem awaitInd_congr {s t : RelayState} (h : s.ctl = t.ctl) (c : Nat) :
    awaitInd s c = awaitInd t c := by
  simp [awaitInd, h]

theorem InvP.pending_of_idle {s : RelayState} (h : InvP s) (hctl : s.ctl = Ctl.idle) :
    s.pending = [] := by
  have hp := h.ctlPending; rw [hctl] at hp; exact hp

theorem InvP.pending_of_delaying {s : RelayState} (h : InvP s)
    (hctl : s.ctl = Ctl.delaying) : s.pending = [] := by
  have hp := h.ctlPending; rw [hctl] at hp; exact hp

theorem InvP.pending_of_awaiting {s : RelayState} {id c : Nat} (h : InvP s)
    (hctl : s.ctl = Ctl.awaiting id c) : s.pending = [(id, c)] := by
  have hp := h.ctlPending; rw [hctl] at hp; exact hp

/-- Every handler of the relay preserves the invariant. -/
theorem step_inv (s : RelayState) (e : Ev) (h : InvP s) : InvP (step s e) := by
  cases e with
  | submit sendOk =>
    by_cases hctl : s.ctl = Ctl.idle
    · simp only [step, if_pos hctl]
      refine drain_inv _ _ _ ?_ ?_
      · exact Nat.le_refl _
      refine ⟨⟨h.pending_of_idle hctl, ?_, ?_, ?_⟩, Or.inl hctl⟩
      · intro c
        have hcnt := h.counting c
        rw [awaitInd_flat (Or.inl hctl) c, Nat.add_zero] at hcnt
        simp only [resCount] at hcnt
        exact count_submit hcnt
      · rw [h.histOpen, h.pending_of_idle hctl]; rfl
      · exact h.histOK
    · simp only [step, if_neg hctl]
      refine ⟨h.ctlPending, ?_, h.connPending, h.histOpen, h.histOK, ?_⟩
      · intro c
        have hcnt := h.counting c
        simp only [resCount] at hcnt
        show cnt (s.queue ++ [s.submitted]) c + awaitInd _ c + resCnt s.resolutions c = _
        rw [awaitInd_congr (by rfl : _ = s.ctl) c]
        exact count_submit' hcnt
      · intro h1; exact absurd h1 hctl
  | reply id v =>
    cases hm : s.pending.find? (fun p => p.1 == id) with
    | none => simpa only [step, hm] using h
    | some pc =>
      cases hctl : s.ctl with
      | idle =>
        rw [h.pending_of_idle hctl] at hm
        simp at hm
      | delaying =>
        rw [h.pending_of_delaying hctl] at hm
        simp at hm
      | awaiting id0 c0 =>
        have hp := h.pending_of_awaiting hctl
        have hm2 := hm
        rw [hp] at hm2
        by_cases hid : id0 = id
        · subst hid
          simp only [List.find?_cons, beq_self_eq_true, if_true] at hm2
          injection hm2 with hpc
          subst hpc
          simp only [step, hm]
          apply afterResolve_inv
          refine ⟨?_, ?_, ?_, ?_⟩
          · rw [hp]; simp
          · intro x
            have hcnt := h.counting x
            rw [awaitInd_awaiting hctl x] at hcnt
            simp only [resCount] at hcnt
            exact shiftB (RResult.ok v) hcnt
          · show openCalls (s.hist ++ [HEv.settled id0]) = []
            rw [openCalls_settled, h.histOpen, hp]; simp
          · exact histOK_snoc h.histOK
              (by rw [openCalls_settled, h.histOpen, hp]; simp)
        · simp [List.find?_cons, hid] at hm2
  | timeoutFire =>
    cases hctl : s.ctl with
    | idle => simpa only [step, hctl] using h
    | delaying => simpa only [step, hctl] using h
    | awaiting id c =>
      have hp := h.pending_of_awaiting hctl
      simp only [step, hctl]
      apply afterResolve_inv
      refine ⟨?_, ?_, ?_, ?_⟩
      · rw [hp]; simp
      · intro x
        have hcnt := h.counting x
        rw [awaitInd_awaiting hctl x] at hcnt
        simp only [resCount] at hcnt
        exact shiftB RResult.timeoutErr hcnt
      · rw [openCalls_settled, h.histOpen, hp]; simp
      · exact histOK_snoc h.histOK (by rw [openCalls_settled, h.histOpen, hp]; simp)
  | disconnect =>
    cases hc : s.connected with
    | false => simpa only [step, hc, Bool.false_eq_true, if_false] using h
    | true =>
      simp only [step, hc, if_true]
      cases hctl : s.ctl with
      | awaiting id c =>
        have hp := h.pending_of_awaiting hctl
        rw [hp]
        apply afterResolve_inv
        refine ⟨rfl, ?_, ?_, ?_⟩
        · intro x
          have hcnt := h.counting x
          rw [awaitInd_awaiting hctl x] at hcnt
          simp only [resCount] at hcnt
          show cnt s.queue x + resCnt (s.resolutions ++ [(c, RResult.connClosed)]) x = _
          exact shiftB RResult.connClosed hcnt
        · show openCalls (s.hist ++ [HEv.settled id]) = []
          rw [openCalls_settled, h.histOpen, hp]; simp
        · show ∀ p, p <+: s.hist ++ [HEv.settled id] → (openCalls p).length ≤ 1
          exact histOK_snoc h.histOK
            (by rw [openCalls_settled, h.histOpen, hp]; simp)
      | idle =>
        have hp := h.pending_of_idle hctl
        rw [hp]
        refine ⟨?_, ?_, ?_, ?_, ?_, ?_⟩
        · exact rfl
        · intro x
          have hcnt := h.counting x
          rw [awaitInd_flat (Or.inl hctl) x] at hcnt
          simp only [resCount] at hcnt
          show cnt s.queue x + awaitInd _ x + resCnt (s.resolutions ++ []) x = _
          rw [awaitInd_flat (Or.inl rfl) x, List.append_nil]
          exact hcnt
        · intro _; rfl
        · show openCalls (s.hist ++ []) = ([] : List (Nat × Nat)).map Prod.fst
          rw [List.append_nil, h.histOpen, hp]
        · show ∀ p, p <+: s.hist ++ [] → (openCalls p).length ≤ 1
          rw [List.append_nil]; exact h.histOK
        · intro _; exact h.idleQueue hctl
      | delaying =>
        have hp := h.pending_of_delaying hctl
        rw [hp]
        refine ⟨?_, ?_, ?_, ?_, ?_, ?_⟩
        · exact rfl
        · intro x
          have hcnt := h.counting x
          rw [awaitInd_flat (Or.inr hctl) x] at hcnt
          simp only [resCount] at hcnt
          show cnt s.queue x + awaitInd _ x + resCnt (s.resolutions ++ []) x = _
          rw [awaitInd_flat (Or.inr rfl) x, List.append_nil]
          exact hcnt
        · intro _; rfl
        · show openCalls (s.hist ++ []) = ([] : List (Nat × Nat)).map Prod.fst
          rw [List.append_nil, h.histOpen, hp]
        · show ∀ p, p <+: s.hist ++ [] → (openCalls p).length ≤ 1
          rw [List.append_nil]; exact h.histOK
        · intro h1; simp at h1
  | connect =>
    refine ⟨h.ctlPending, h.counting, ?_, h.histOpen, h.histOK, h.idleQueue⟩
    intro h1; simp [step] at h1
  | tick sendOk =>
    by_cases hctl : s.ctl = Ctl.delaying
    · simp only [step, if_pos hctl]
      apply drain_inv _ _ _ (le_refl _)
      refine ⟨⟨h.pending_of_delaying hctl, ?_, ?_, ?_⟩, Or.inr hctl⟩
      · intro c
        have hcnt := h.counting c
        rw [awaitInd_flat (Or.inr hctl) c, Nat.add_zero] at hcnt
        exact hcnt
      · rw [h.histOpen, h.pending_of_delaying hctl]; rfl
      · exact h.histOK
    · simp only [step, if_neg hctl]; exact h

theorem init_inv : InvP initRelay := by
  refine ⟨?_, ?_, ?_, ?_, ?_, ?_⟩
  · simp [initRelay]
  · intro c; simp [initRelay, awaitInd, resCount, resCnt, cnt]
  · intro _; rfl
  · rfl
  · intro p hp
    rw [List.prefix_nil.mp hp]
    simp [openCalls]
  · intro _; rfl

theorem steps_inv (tr : List Ev) : ∀ s : RelayState, InvP s → InvP (tr.foldl step s) := by
  induction tr with
  | nil => exact fun s h => h
  | cons e tr ih => exact fun s h => ih (step s e) (step_inv s e h)

/-- The relay invariant holds after every event trace. -/
theorem relay_inv (tr : List Ev) : InvP (run tr) := steps_inv tr initRelay init_inv

/-! ### Claims C1-C4 about the relay -/

/-- C1: strict single-flight.  After any sequence of submitted tool calls
and environment events, the Pending Table never holds more than one entry,
and at every point of the peer-channel wire log at most one `tool_call` is
open (sent and not yet settled by its `tool_result`, its timeout, or the
channel close): the relay never sends a second `tool_call` before the
previous one's resolution. -/
theorem relay_single_flight (tr : List Ev) :
    (run tr).pending.length ≤ 1 ∧
    ∀ p, p <+: (run tr).hist → (openCalls p).length ≤ 1 := by
  have h := relay_inv tr
  constructor
  · rcases hctl : (run tr).ctl with _ | ⟨id, c⟩ | _
    · rw [h.pending_of_idle hctl]; simp
    · rw [h.pending_of_awaiting hctl]; simp
    · rw [h.pending_of_delaying hctl]; simp
  · exact h.histOK

/-- Witness for `relay_single_flight` at a concrete trace. -/
theorem relay_single_flight_witness :
    ([HEv.sent 1] <+: (run [Ev.connect, Ev.submit true]).hist) ∧
    (openCalls [HEv.sent 1]).length ≤ 1 :=
  ⟨by decide, (relay_single_flight [Ev.connect, Ev.submit true]).2 [HEv.sent 1] (by decide)⟩

/-- C2: exactly-once resolution.  Every caller receives at most one
resolution in every interleaving of replies, timeouts, send failures,
connects and disconnects; and whenever `processQueue` is idle (all
submitted work has been processed), every submitted caller has received
exactly one resolution — never zero, never two. -/
theorem relay_submit_exactly_once (tr : List Ev) (c : Nat) :
    resCount (run tr) c ≤ 1 ∧
    ((run tr).ctl = Ctl.idle → c < (run tr).submitted → resCount (run tr) c = 1) := by
  have h := relay_inv tr
  have hcnt := h.counting c
  constructor
  · by_cases hlt : c < (run tr).submitted
    · rw [if_pos hlt] at hcnt; omega
    · rw [if_neg hlt] at hcnt; omega
  · intro hidle hlt
    have hq := h.idleQueue hidle
    rw [awaitInd_flat (Or.inl hidle) c, hq, if_pos hlt] at hcnt
    have h0 : cnt [] c = 0 := rfl
    omega

/-- Witness for `relay_submit_exactly_once` at a concrete trace. -/
theorem relay_submit_exactly_once_witness :
    resCount (run [Ev.connect, Ev.submit true, Ev.reply 1 7]) 0 = 1 :=
  (relay_submit_exactly_once [Ev.connect, Ev.submit true, Ev.reply 1 7] 0).2
    (by decide) (by decide)

/-- C3 counterexample: the close handler does NOT clear the Submission
Queue.  Submit two calls (the first goes in flight, the second queues),
then the peer disconnects: the single pending call is resolved with the
connection-closed error and the Pending Table empties, but the queued
request is still in the Submission Queue. -/
theorem relay_disconnect_keeps_queue_cex :
    (run [Ev.connect, Ev.submit true, Ev.submit true]).pending = [(1, 0)] ∧
    (run [Ev.connect, Ev.submit true, Ev.submit true, Ev.disconnect]).pending = [] ∧
    (run [Ev.connect, Ev.submit true, Ev.submit true, Ev.disconnect]).resolutions
      = [(0, RResult.connClosed)] ∧
    (run [Ev.connect, Ev.submit true, Ev.submit true, Ev.disconnect]).queue = [1] ∧
    (run [Ev.connect, Ev.submit true, Ev.submit true, Ev.disconnect]).queue ≠ [] := by
  decide

/-- C3 amended: on peer-channel close, every pending call is resolved with
the connection-closed error and the Pending Table becomes empty, but the
Submission Queue is left untouched by the close handler; its entries are
only failed (with a not-connected error) as the still-running drain loop
pops them. -/
theorem relay_disconnect_resolves_pending (tr : List Ev) :
    (step (run tr) Ev.disconnect).pending = [] ∧
    (step (run tr) Ev.disconnect).resolutions
      = (run tr).resolutions ++ (run tr).pending.map (fun p => (p.2, RResult.connClosed)) ∧
    (step (run tr) Ev.disconnect).queue = (run tr).queue := by
  have h := relay_inv tr
  cases hc : (run tr).connected with
  | false =>
    have hp : (run tr).pending = [] := h.connPending hc
    simp only [step, hc, Bool.false_eq_true, if_false]
    simp [hp]
  | true =>
    simp only [step, hc, if_true]
    rcases hctl : (run tr).ctl with _ | ⟨id, c⟩ | _ <;>
      refine ⟨by simp, by simp, by simp⟩

/-- C4: timeout semantics.  If a call is in flight and its 30s timer
fires, its caller is resolved with the timeout error and the pending entry
is removed; and a `tool_result` whose correlation id is not in the Pending
Table (in particular a late reply after the timeout already fired) leaves
the whole relay state unchanged. -/
theorem relay_timeout_then_late_reply (tr : List Ev) (id c v : Nat) :
    ((run tr).ctl = Ctl.awaiting id c →
      (step (run tr) Ev.timeoutFire).resolutions
        = (run tr).resolutions ++ [(c, RResult.timeoutErr)] ∧
      (step (run tr) Ev.timeoutFire).pending = []) ∧
    ((run tr).pending.find? (fun p => p.1 == id) = none →
      step (run tr) (Ev.reply id v) = run tr) := by
  constructor
  · intro hctl
    have hp := (relay_inv tr).pending_of_awaiting hctl
    simp only [step, hctl]
    constructor
    · simp
    · simp [hp]
  · intro hm
    simp only [step, hm]

/-- Witness for `relay_timeout_then_late_reply` at a concrete trace. -/
theorem relay_timeout_then_late_reply_witness :
    (step (run [Ev.connect, Ev.submit true]) Ev.timeoutFire).resolutions
      = [(0, RResult.timeoutErr)] ∧
    step (run [Ev.connect, Ev.submit true]) (Ev.reply 99 5)
      = run [Ev.connect, Ev.submit true] :=
  ⟨(((relay_timeout_then_late_reply [Ev.connect, Ev.submit true] 1 0 5).1
      (by decide)).1).trans (by decide),
   (relay_timeout_then_late_reply [Ev.connect, Ev.submit true] 99 0 5).2 (by decide)⟩

/-!
## Part 2 — CDP Debugger Manager (`extension/background.js`)

The extension keeps `debuggerAttached : Map<tabId, {attached, domains:Set}>`
and the functions `attachDebugger`, `detachDebugger`, `sendCDPCommand` and
`enableCDPDomain`.  The asynchronous `chrome.debugger` API is embedded as a
log `ops` of the underlying attach/detach/sendCommand invocations; whether
an invocation throws is an environment choice passed as a Boolean oracle
(`attachOk`, `cmdOk`, `detachOk`).
-/

/-- The value stored in `debuggerAttached` for a tab:
`{ attached: true, domains: new Set() }`. -/
structure TabSession where
  attached : Bool
  domains : List String
deriving DecidableEq, Repr

/-- One underlying `chrome.debugger` API invocation. -/
inductive CDPOp
  | attach (tabId : Nat)
  | detach (tabId : Nat)
  | command (tabId : Nat) (method : String)
deriving DecidableEq, Repr

/-- State of the CDP manager: the `debuggerAttached` map and the log of
underlying `chrome.debugger` invocations. -/
structure CDPState where
  debuggerAttached : Nat → Option TabSession
  ops : List CDPOp

/-- Result shapes returned by the CDP manager functions:
`{success:true, already:true}` / `{success:true}` (`ok true` / `ok false`),
a raw command payload (`value`), or `{error: message}` (`err`). -/
inductive CDPResult
  | ok (already : Bool)
  | value
  | err (msg : String)
deriving DecidableEq, Repr

/-- `result?.error` truthiness test used by the callers. -/
def CDPResult.isErr : CDPResult → Bool
  | CDPResult.err _ => true
  | _ => false

/-- `debuggerAttached.get(tabId)?.attached` (falsy when absent). -/
def attachedAt (st : CDPState) (tabId : Nat) : Bool :=
  match st.debuggerAttached tabId with
  | some td => td.attached
  | none => false

/-- The CDP state with the entry of `tabId` replaced. -/
def setTab (st : CDPState) (tabId : Nat) (v : Option TabSession) : CDPState :=
  { st with debuggerAttached := fun k => if k = tabId then v else st.debuggerAttached k }

/-- `attachDebugger(tabId)`: early-return `{success:true, already:true}` when
`debuggerAttached.get(tabId)?.attached`; otherwise invoke
`chrome.debugger.attach({tabId}, '1.3')` (outcome `attachOk`), on success
store `{attached:true, domains:new Set()}` and return `{success:true}`, on
exception return the error without storing. -/
def attachDebugger (tabId : Nat) (attachOk : Bool) (st : CDPState) :
    CDPResult × CDPState :=
  if attachedAt st tabId then (CDPResult.ok true, st)
  else if attachOk then
    (CDPResult.ok false,
      setTab { st with ops := st.ops ++ [CDPOp.attach tabId] } tabId
        (some { attached := true, domains := [] }))
  else (CDPResult.err "attach failed", { st with ops := st.ops ++ [CDPOp.attach tabId] })

/-- `detachDebugger(tabId)`: early-return `{success:true, already:true}` when
not attached; otherwise invoke `chrome.debugger.detach({tabId})` (outcome
`detachOk`), on success delete the map entry and return `{success:true}`,
on exception return the error keeping the entry. -/
def detachDebugger (tabId : Nat) (detachOk : Bool) (st : CDPState) :
    CDPResult × CDPState :=
  if attachedAt st tabId then
    if detachOk then
      (CDPResult.ok false, setTab { st with ops := st.ops ++ [CDPOp.detach tabId] } tabId none)
    else (CDPResult.err "detach failed", { st with ops := st.ops ++ [CDPOp.detach tabId] })
  else (CDPResult.ok true, st)

/-- `chrome.debugger.sendCommand({tabId}, method, params)` (outcome
`cmdOk`); parameters are irrelevant to the session bookkeeping and are
omitted. -/
def sendCommandRaw (tabId : Nat) (method : String) (cmdOk : Bool) (st : CDPState) :
    CDPResult × CDPState :=
  ((if cmdOk then CDPResult.value else CDPResult.err "command failed"),
   { st with ops := st.ops ++ [CDPOp.command tabId method] })

/-- `sendCDPCommand(tabId, method, params)`: auto-attach when not attached
(returning the attach error when that fails), then issue the command. -/
def sendCDPCommand (tabId : Nat) (method : String) (attachOk cmdOk : Bool)
    (st : CDPState) : CDPResult × CDPState :=
  if attachedAt st tabId then sendCommandRaw tabId method cmdOk st
  else
    match attachDebugger tabId attachOk st with
    | (CDPResult.err m, st1) => (CDPResult.err m, st1)
    | (_, st1) => sendCommandRaw tabId method cmdOk st1

/-- `enableCDPDomain(tabId, domain)`: skip when the snapshot
`tabData = debuggerAttached.get(tabId)` already has the domain; otherwise
send `"<domain>.enable"` through `sendCDPCommand` and, when it did not
error, run `tabData?.domains?.add(domain)` — a mutation of the snapshot
object, which is the object still stored in the map exactly when the entry
existed and was attached before the call (an auto-attach inside
`sendCDPCommand` stores a fresh object, so the mark is lost then). -/
def enableCDPDomain (tabId : Nat) (domain : String) (attachOk cmdOk : Bool)
    (st : CDPState) : CDPResult × CDPState :=
  match st.debuggerAttached tabId with
  | some td =>
    if td.domains.contains domain then (CDPResult.ok true, st)
    else
      match sendCDPCommand tabId (domain ++ ".enable") attachOk cmdOk st with
      | (r, st1) =>
        if r.isErr then (r, st1)
        else if td.attached then
          (r, setTab st1 tabId
            ((st1.debuggerAttached tabId).map
              (fun t => { t with domains := t.domains ++ [domain] })))
        else (r, st1)
  | none =>
    match sendCDPCommand tabId (domain ++ ".enable") attachOk cmdOk st with
    | (r, st1) => (r, st1)

/-- The CDP manager state with no sessions and an empty invocation log. -/
def emptyCDP : CDPState := { debuggerAttached := fun _ => none, ops := [] }

/-! ### Claims C5, C6, C10 about the CDP manager -/

/-- C6: `attachDebugger(tabId)` is idempotent.  From a state where the tab
is not attached and `chrome.debugger.attach` succeeds, a first call returns
`{success:true}`, a second call returns `{success:true, already:true}`, and
across both calls exactly one underlying attach invocation is performed. -/
theorem setTab_ops (st : CDPState) (tabId : Nat) (v : Option TabSession) :
    (setTab st tabId v).ops = st.ops := rfl

theorem attachedAt_setTab_same (st : CDPState) (tabId : Nat) (td : TabSession) :
    attachedAt (setTab st tabId (some td)) tabId = td.attached := by
  simp [attachedAt, setTab]

/-- The early-return branch of `attachDebugger`. -/
theorem attachDebugger_already (st : CDPState) (tabId : Nat) (aok : Bool)
    (h : attachedAt st tabId = true) :
    attachDebugger tabId aok st = (CDPResult.ok true, st) := by
  simp [attachDebugger, h]

/-- The attaching branch of `attachDebugger`. -/
theorem attachDebugger_fresh (st : CDPState) (tabId : Nat)
    (h : attachedAt st tabId = false) :
    attachDebugger tabId true st
      = (CDPResult.ok false,
         setTab { st with ops := st.ops ++ [CDPOp.attach tabId] } tabId
           (some { attached := true, domains := [] })) := by
  simp [attachDebugger, h]

theorem attach_idempotent (st : CDPState) (tabId : Nat)
    (h : attachedAt st tabId = false) :
    (attachDebugger tabId true st).1 = CDPResult.ok false ∧
    (attachDebugger tabId true (attachDebugger tabId true st).2).1 = CDPResult.ok true ∧
    (attachDebugger tabId true (attachDebugger tabId true st).2).2.ops
      = st.ops ++ [CDPOp.attach tabId] := by
  have h2 : attachedAt (attachDebugger tabId true st).2 tabId = true := by
    rw [attachDebugger_fresh st tabId h]
    exact attachedAt_setTab_same _ _ _
  refine ⟨?_, ?_, ?_⟩
  · rw [attachDebugger_fresh st tabId h]
  · rw [attachDebugger_already _ _ _ h2]
  · rw [attachDebugger_already _ _ _ h2, attachDebugger_fresh st tabId h]
    rfl

/-- Witness for `attach_idempotent` on a fresh state and tab 7. -/
theorem attach_idempotent_witness :
    (attachDebugger 7 true emptyCDP).1 = CDPResult.ok false ∧
    (attachDebugger 7 true (attachDebugger 7 true emptyCDP).2).1 = CDPResult.ok true ∧
    (attachDebugger 7 true (attachDebugger 7 true emptyCDP).2).2.ops = [CDPOp.attach 7] :=
  ⟨(attach_idempotent emptyCDP 7 rfl).1, (attach_idempotent emptyCDP 7 rfl).2.1,
   ((attach_idempotent emptyCDP 7 rfl).2.2).trans rfl⟩

/-- C10: `detachDebugger(tabId)` on a tab with no attached session returns
`{success:true, already:true}`, performs no underlying detach invocation
and leaves the state unchanged; hence detach after detach equals detach. -/
theorem detach_idempotent (st : CDPState) (tabId : Nat) (dOk dOk2 : Bool)
    (h : attachedAt st tabId = false) :
    detachDebugger tabId dOk st = (CDPResult.ok true, st) ∧
    detachDebugger tabId dOk2 (detachDebugger tabId dOk st).2
      = detachDebugger tabId dOk st := by
  have h1 : detachDebugger tabId dOk st = (CDPResult.ok true, st) := by
    simp [detachDebugger, h]
  refine ⟨h1, ?_⟩
  rw [h1]
  show detachDebugger tabId dOk2 st = (CDPResult.ok true, st)
  simp [detachDebugger, h]

/-- Witness for `detach_idempotent` on a fresh state and tab 7. -/
theorem detach_idempotent_witness :
    detachDebugger 7 true emptyCDP = (CDPResult.ok true, emptyCDP) ∧
    detachDebugger 7 false (detachDebugger 7 true emptyCDP).2
      = detachDebugger 7 true emptyCDP :=
  ⟨(detach_idempotent emptyCDP 7 true false rfl).1,
   (detach_idempotent emptyCDP 7 true false rfl).2⟩

/-- C5 counterexample: `sendCDPCommand` issues no implicit domain enable.
With tab 7 attached, sending the first Network-domain command issues
exactly that command and never a `Network.enable`: the attach/command log
contains no enable invocation. -/
theorem sendCommand_no_implicit_enable_cex :
    (sendCDPCommand 7 "Network.getCookies" true true
        (attachDebugger 7 true emptyCDP).2).2.ops
      = [CDPOp.attach 7, CDPOp.command 7 "Network.getCookies"] ∧
    CDPOp.command 7 "Network.enable" ∉
      (sendCDPCommand 7 "Network.getCookies" true true
        (attachDebugger 7 true emptyCDP).2).2.ops := by
  decide

/-- C5 amended: `sendCDPCommand` auto-attaches but issues exactly the
requested command, never an implicit enable; domain enabling is the
explicit `enableCDPDomain`, which, for a session attached before the call,
issues `<domain>.enable` at most once — a second call for the same domain
returns `{success:true, already:true}` and performs no invocation at
all. -/
theorem cdp_domain_enable_once :
    (∀ (st : CDPState) (tabId : Nat) (method : String) (attachOk cmdOk : Bool),
      attachedAt st tabId = true →
      (sendCDPCommand tabId method attachOk cmdOk st).2.ops
        = st.ops ++ [CDPOp.command tabId method]) ∧
    (∀ (st : CDPState) (tabId : Nat) (domain : String) (ds : List String)
      (attachOk attachOk2 cmdOk2 : Bool),
      st.debuggerAttached tabId = some { attached := true, domains := ds } →
      ds.contains domain = false →
      (enableCDPDomain tabId domain attachOk true st).2.ops
        = st.ops ++ [CDPOp.command tabId (domain ++ ".enable")] ∧
      enableCDPDomain tabId domain attachOk2 cmdOk2
          (enableCDPDomain tabId domain attachOk true st).2
        = (CDPResult.ok true, (enableCDPDomain tabId domain attachOk true st).2)) := by
  constructor
  · intro st tabId method attachOk cmdOk h
    simp [sendCDPCommand, sendCommandRaw, h]
  · intro st tabId domain ds attachOk attachOk2 cmdOk2 hm hd
    have hatt : attachedAt st tabId = true := by simp [attachedAt, hm]
    have hd2 : domain ∉ ds := by simpa using hd
    have hops : (enableCDPDomain tabId domain attachOk true st).2.ops
        = st.ops ++ [CDPOp.command tabId (domain ++ ".enable")] := by
      simp [enableCDPDomain, hm, hd2, sendCDPCommand, hatt, sendCommandRaw,
        CDPResult.isErr, setTab]
    have hlook : (enableCDPDomain tabId domain attachOk true st).2.debuggerAttached tabId
        = some { attached := true, domains := ds ++ [domain] } := by
      simp [enableCDPDomain, hm, hd2, sendCDPCommand, hatt, sendCommandRaw,
        CDPResult.isErr, setTab]
    refine ⟨hops, ?_⟩
    set st2 := (enableCDPDomain tabId domain attachOk true st).2 with hst2
    simp [enableCDPDomain, hlook]

/-- Witness for `cdp_domain_enable_once`: attach tab 7, send a plain
command, enable the Network domain twice — one enable invocation total. -/
theorem cdp_domain_enable_once_witness :
    (sendCDPCommand 7 "Page.navigate" true true (attachDebugger 7 true emptyCDP).2).2.ops
      = (attachDebugger 7 true emptyCDP).2.ops ++ [CDPOp.command 7 "Page.navigate"] ∧
    (enableCDPDomain 7 "Network" true true (attachDebugger 7 true emptyCDP).2).2.ops
      = (attachDebugger 7 true emptyCDP).2.ops ++ [CDPOp.command 7 ("Network" ++ ".enable")] ∧
    enableCDPDomain 7 "Network" true true
        (enableCDPDomain 7 "Network" true true (attachDebugger 7 true emptyCDP).2).2
      = (CDPResult.ok true,
         (enableCDPDomain 7 "Network" true true (attachDebugger 7 true emptyCDP).2).2) :=
  ⟨cdp_domain_enable_once.1 (attachDebugger 7 true emptyCDP).2 7 "Page.navigate" true true rfl,
   (cdp_domain_enable_once.2 (attachDebugger 7 true emptyCDP).2 7 "Network" [] true
      true true rfl rfl).1,
   (cdp_domain_enable_once.2 (attachDebugger 7 true emptyCDP).2 7 "Network" [] true
      true true rfl rfl).2⟩

/-!
## Part 3 — Dispatcher policy gating (`executeToolCall`, background.js)

`executeToolCall(tool, params)` first checks the two static policy tables:
tools outside `noAgentRequired` fail with `{error:'Agent control is
disabled'}` when `agentEnabled` is false, then tools outside
`noTabRequired` resolve the active tab and fail with `{error:'No active
tab'}` when none exists; only then is the per-tool work reached.  The
per-tool work is abstracted as a function `work` from the tool name and
the resolved tab (null when no tab was queried) to an outcome.
-/

/-- The `noAgentRequired` table of `executeToolCall`. -/
def noAgentRequired : List String :=
  ["browser_snapshot", "get_page_info",
   "list_extensions", "reload_extension", "get_extension_info",
   "enable_extension", "disable_extension",
   "open_extension_popup", "open_extension_options", "open_extension_devtools",
   "open_extension_errors", "trigger_extension_action", "get_extension_popup_content",
   "interact_with_extension", "close_tab", "cdp_attach", "cdp_detach", "cdp_command"]

/-- The `noTabRequired` table of `executeToolCall`. -/
def noTabRequired : List String :=
  ["list_extensions", "reload_extension", "get_extension_info",
   "enable_extension", "disable_extension",
   "open_extension_popup", "open_extension_options", "open_extension_devtools",
   "open_extension_errors", "trigger_extension_action", "get_extension_popup_content",
   "interact_with_extension", "close_tab"]

/-- Outcome of a dispatched tool call: an `{error}` object or the payload
of the per-tool work. -/
inductive ToolOutcome
  | err (msg : String)
  | done (v : Nat)
deriving DecidableEq, Repr

/-- The gating prefix of `executeToolCall`; `activeTab` is the result of
`chrome.tabs.query({active:true, currentWindow:true})`, and `work` stands
for the switch over tool names that does the actual work. -/
def executeToolCall (agentEnabled : Bool) (tool : String) (activeTab : Option Nat)
    (work : String → Option Nat → ToolOutcome) : ToolOutcome :=
  if !agentEnabled && !(noAgentRequired.contains tool) then
    ToolOutcome.err "Agent control is disabled"
  else if !(noTabRequired.contains tool) then
    match activeTab with
    | none => ToolOutcome.err "No active tab"
    | some t => work tool (some t)
  else work tool none

/-! ### Claim C7 about the dispatcher gate -/

/-- C7: the two static policy tables gate execution.  A tool outside
`noAgentRequired` run with the agent disabled fails with the permission
error, for every work function (so before any work); a tool outside
`noTabRequired` that passes the permission gate and has no resolvable
active tab fails with the no-target error, for every work function; tools
inside `noAgentRequired` are executed identically whether the agent is
enabled or not; and tools inside `noTabRequired` skip the tab check and
run their work with no tab even when no tab exists. -/
theorem executeToolCall_policy_gates (tool : String) (tab : Option Nat)
    (enabled : Bool) (work work2 : String → Option Nat → ToolOutcome) :
    (noAgentRequired.contains tool = false →
      executeToolCall false tool tab work = ToolOutcome.err "Agent control is disabled" ∧
      executeToolCall false tool tab work = executeToolCall false tool tab work2) ∧
    (noTabRequired.contains tool = false →
      (enabled = true ∨ noAgentRequired.contains tool = true) →
      executeToolCall enabled tool none work = ToolOutcome.err "No active tab" ∧
      executeToolCall enabled tool none work = executeToolCall enabled tool none work2) ∧
    (noAgentRequired.contains tool = true →
      executeToolCall false tool tab work = executeToolCall true tool tab work) ∧
    (noTabRequired.contains tool = true →
      (enabled = true ∨ noAgentRequired.contains tool = true) →
      executeToolCall enabled tool none work = work tool none) := by
  refine ⟨?_, ?_, ?_, ?_⟩
  · intro h
    have h2 : tool ∉ noAgentRequired := by simpa using h
    constructor <;> simp [executeToolCall, h2]
  · intro h hpass
    have h2 : tool ∉ noTabRequired := by simpa using h
    rcases hpass with hpass | hpass
    · subst hpass
      constructor <;> simp [executeToolCall, h2]
    · have h3 : tool ∈ noAgentRequired := by simpa using hpass
      constructor <;> simp [executeToolCall, h2, h3]
  · intro h
    have h2 : tool ∈ noAgentRequired := by simpa using h
    simp [executeToolCall, h2]
  · intro h hpass
    have h2 : tool ∈ noTabRequired := by simpa using h
    rcases hpass with hpass | hpass
    · subst hpass
      simp [executeToolCall, h2]
    · have h3 : tool ∈ noAgentRequired := by simpa using hpass
      simp [executeToolCall, h2, h3]

/-- Witness for `executeToolCall_policy_gates`: `browser_click` is in
neither table, `cdp_attach` only in `noAgentRequired`, `close_tab` in
both. -/
theorem executeToolCall_policy_gates_witness :
    executeToolCall false "browser_click" (some 3) (fun _ _ => ToolOutcome.done 0)
      = ToolOutcome.err "Agent control is disabled" ∧
    executeToolCall true "browser_click" none (fun _ _ => ToolOutcome.done 0)
      = ToolOutcome.err "No active tab" ∧
    executeToolCall false "cdp_attach" (some 3) (fun _ _ => ToolOutcome.done 0)
      = executeToolCall true "cdp_attach" (some 3) (fun _ _ => ToolOutcome.done 0) ∧
    executeToolCall true "close_tab" none (fun _ _ => ToolOutcome.done 0)
      = ToolOutcome.done 0 :=
  ⟨((executeToolCall_policy_gates "browser_click" (some 3) true
      (fun _ _ => ToolOutcome.done 0) (fun _ _ => ToolOutcome.done 0)).1 (by decide)).1,
   ((executeToolCall_policy_gates "browser_click" (some 3) true
      (fun _ _ => ToolOutcome.done 0) (fun _ _ => ToolOutcome.done 0)).2.1 (by decide)
      (Or.inl rfl)).1,
   (executeToolCall_policy_gates "cdp_attach" (some 3) true
      (fun _ _ => ToolOutcome.done 0) (fun _ _ => ToolOutcome.done 0)).2.2.1 (by decide),
   (executeToolCall_policy_gates "close_tab" (some 3) true
      (fun _ _ => ToolOutcome.done 0) (fun _ _ => ToolOutcome.done 0)).2.2.2 (by decide)
      (Or.inl rfl)⟩

/-!
## Part 4 — Extension error store (`captureExtensionErrors`, background.js)

`extensionErrorStore : Map<extensionId, {errors:[], console:[], tabId}>`.
`captureExtensionErrors` creates the entry when absent
(`{errors: [], console: [], tabId}`), updates `store.tabId`, and for the
duration of the observation window appends every CDP event of the opened
tab to `store.errors` / `store.console` via `errorHandler`; the inline
`Runtime.evaluate` probe may append further runtime errors.  The
`clear_extension_errors` tool deletes the map entry
(`extensionErrorStore.delete(extensionId)`).

Event payload fields (messages, levels, stack traces) are abstracted to
strings; the list structure and the append discipline are what the claims
are about.
-/

/-- The value stored in `extensionErrorStore` for an extension id. -/
structure ExtStore where
  errors : List String
  console : List (String × String)
  tabId : Nat
deriving DecidableEq, Repr

/-- A `chrome.debugger.onEvent` delivery observed by `errorHandler`,
tagged with the tab it originated from. -/
inductive CDPEvent
  /-- `Runtime.exceptionThrown` -/
  | exceptionThrown (sourceTab : Nat) (msg : String)
  /-- `Console.messageAdded` -/
  | consoleMessageAdded (sourceTab : Nat) (level : String) (text : String)
  /-- `Runtime.consoleAPICalled` -/
  | consoleAPICalled (sourceTab : Nat) (level : String) (text : String)
deriving DecidableEq, Repr

/-- `errorHandler` for the capture tab `tabId`: events from other tabs are
ignored (`if (source.tabId !== tab.id) return`), exceptions append to
`errors`, console events append to `console`. -/
def handleCaptureEvent (tabId : Nat) (store : ExtStore) (e : CDPEvent) : ExtStore :=
  match e with
  | CDPEvent.exceptionThrown src msg =>
    if src = tabId then { store with errors := store.errors ++ [msg] } else store
  | CDPEvent.consoleMessageAdded src lvl txt =>
    if src = tabId then { store with console := store.console ++ [(lvl, txt)] } else store
  | CDPEvent.consoleAPICalled src lvl txt =>
    if src = tabId then { store with console := store.console ++ [(lvl, txt)] } else store

/-- The effect of one `captureExtensionErrors` run on the extension's
store: start from the existing entry (or a fresh one), set `tabId`, fold
the observation window's events through `errorHandler`, then append the
errors surfaced by the `Runtime.evaluate` probe. -/
def captureStore (prev : Option ExtStore) (tabId : Nat) (events : List CDPEvent)
    (evalErrors : List String) : ExtStore :=
  let base : ExtStore :=
    match prev with
    | some s => { s with tabId := tabId }
    | none => { errors := [], console := [], tabId := tabId }
  let afterEvents := events.foldl (handleCaptureEvent tabId) base
  { afterEvents with errors := afterEvents.errors ++ evalErrors }

/-- The `extensionErrorStore` map after one capture run for `extId`. -/
def extensionErrorStoreAfterCapture (storeMap : String → Option ExtStore) (extId : String)
    (tabId : Nat) (events : List CDPEvent) (evalErrors : List String) :
    String → Option ExtStore :=
  fun k => if k = extId then some (captureStore (storeMap extId) tabId events evalErrors)
           else storeMap k

/-- The `clear_extension_errors` tool: `extensionErrorStore.delete(extId)`. -/
def clearExtensionErrors (storeMap : String → Option ExtStore) (extId : String) :
    String → Option ExtStore :=
  fun k => if k = extId then none else storeMap k

theorem handleCaptureEvent_errors (tabId : Nat) (s : ExtStore) (e : CDPEvent) :
    (handleCaptureEvent tabId s e).errors
      = s.errors ++ (handleCaptureEvent tabId { errors := [], console := [], tabId := tabId } e).errors := by
  cases e <;> simp [handleCaptureEvent] <;> split <;> simp

theorem handleCaptureEvent_console (tabId : Nat) (s : ExtStore) (e : CDPEvent) :
    (handleCaptureEvent tabId s e).console
      = s.console ++ (handleCaptureEvent tabId { errors := [], console := [], tabId := tabId } e).console := by
  cases e <;> simp [handleCaptureEvent] <;> split <;> simp

theorem foldl_capture_errors (tabId : Nat) (events : List CDPEvent) :
    ∀ s : ExtStore,
      (events.foldl (handleCaptureEvent tabId) s).errors
        = s.errors ++ (events.foldl (handleCaptureEvent tabId)
            { errors := [], console := [], tabId := tabId }).errors := by
  induction events with
  | nil => intro s; simp
  | cons e es ih =>
    intro s
    rw [List.foldl_cons, List.foldl_cons, ih (handleCaptureEvent tabId s e),
      ih (handleCaptureEvent tabId { errors := [], console := [], tabId := tabId } e),
      handleCaptureEvent_errors tabId s e, List.append_assoc]

theorem foldl_capture_console (tabId : Nat) (events : List CDPEvent) :
    ∀ s : ExtStore,
      (events.foldl (handleCaptureEvent tabId) s).console
        = s.console ++ (events.foldl (handleCaptureEvent tabId)
            { errors := [], console := [], tabId := tabId }).console := by
  induction events with
  | nil => intro s; simp
  | cons e es ih =>
    intro s
    rw [List.foldl_cons, List.foldl_cons, ih (handleCaptureEvent tabId s e),
      ih (handleCaptureEvent tabId { errors := [], console := [], tabId := tabId } e),
      handleCaptureEvent_console tabId s e, List.append_assoc]

/-! ### Claim C8 about the extension error store -/

/-- C8: the per-extension error store is append-only.  A capture run on an
existing store appends exactly the newly captured entries after the old
`errors[]` and `console[]` contents (the old entries are preserved
verbatim — in particular across the debugger attach/detach cycle each run
performs); `clear_extension_errors` deletes the extension's entry, and the
next capture then starts from the empty store. -/
theorem extension_error_store_append_only :
    (∀ (prev : ExtStore) (tabId : Nat) (events : List CDPEvent) (evalErrors : List String),
      (captureStore (some prev) tabId events evalErrors).errors
        = prev.errors ++ (captureStore none tabId events evalErrors).errors ∧
      (captureStore (some prev) tabId events evalErrors).console
        = prev.console ++ (captureStore none tabId events evalErrors).console) ∧
    (∀ (m : String → Option ExtStore) (extId : String),
      clearExtensionErrors m extId extId = none) ∧
    (∀ (m : String → Option ExtStore) (extId : String) (tabId : Nat)
      (events : List CDPEvent) (evalErrors : List String),
      extensionErrorStoreAfterCapture (clearExtensionErrors m extId) extId
          tabId events evalErrors extId
        = some (captureStore none tabId events evalErrors)) := by
  refine ⟨?_, ?_, ?_⟩
  · intro prev tabId events evalErrors
    constructor
    · show (events.foldl (handleCaptureEvent tabId) { prev with tabId := tabId }).errors
          ++ evalErrors = _
      rw [foldl_capture_errors tabId events { prev with tabId := tabId }]
      show prev.errors ++ _ ++ evalErrors = _
      rw [List.append_assoc]
      rfl
    · show (events.foldl (handleCaptureEvent tabId) { prev with tabId := tabId }).console
          = _
      rw [foldl_capture_console tabId events { prev with tabId := tabId }]
      rfl
  · intro m extId
    simp [clearExtensionErrors]
  · intro m extId tabId events evalErrors
    simp [extensionErrorStoreAfterCapture, clearExtensionErrors]

/-!
## Part 5 — Tab-close cleanup (`chrome.tabs.onRemoved` listener, background.js)

The background script keeps four per-tab maps —
`debuggerAttached : Map<tabId, {attached, domains}>`,
`networkRequests : Map<tabId, requests[]>`,
`consoleLogs : Map<tabId, logs[]>`,
`animations : Map<tabId, anims[]>` — and the keyed-by-extension-id
`extensionErrorStore`.  The `chrome.tabs.onRemoved` listener deletes the
closed tab's entry from the four per-tab maps (the `debuggerAttached`
entry only after a `has` check) and touches nothing else.  Entry payloads
(request/log/animation objects) are abstracted to strings; only key-level
removal is at stake.
-/

/-- The background script's global stores touched by the tab-close
listener. -/
structure BgState where
  debuggerAttached : Nat → Option TabSession
  networkRequests : Nat → Option (List String)
  consoleLogs : Nat → Option (List String)
  animations : Nat → Option (List String)
  extensionErrorStore : String → Option ExtStore

/-- The `chrome.tabs.onRemoved` listener. -/
def onTabRemoved (tabId : Nat) (st : BgState) : BgState :=
  let st1 :=
    if (st.debuggerAttached tabId).isSome then
      { st with debuggerAttached := fun k => if k = tabId then none else st.debuggerAttached k }
    else st
  { st1 with
    networkRequests := fun k => if k = tabId then none else st1.networkRequests k,
    consoleLogs := fun k => if k = tabId then none else st1.consoleLogs k,
    animations := fun k => if k = tabId then none else st1.animations k }

/-! ### Claim C9 about tab-close cleanup -/

/-- C9: closing a tab purges exactly that tab's per-tab state.  After
`onTabRemoved tabId`, the debug session entry, network request log,
console log and animation log of `tabId` are gone; every other tab's
entries in all four maps are untouched; and the extension-scoped error
store is left entirely unchanged. -/
theorem tab_close_purges_exactly_tab_state (st : BgState) (tabId : Nat) :
    (onTabRemoved tabId st).debuggerAttached tabId = none ∧
    (onTabRemoved tabId st).networkRequests tabId = none ∧
    (onTabRemoved tabId st).consoleLogs tabId = none ∧
    (onTabRemoved tabId st).animations tabId = none ∧
    (∀ t, t ≠ tabId →
      (onTabRemoved tabId st).debuggerAttached t = st.debuggerAttached t ∧
      (onTabRemoved tabId st).networkRequests t = st.networkRequests t ∧
      (onTabRemoved tabId st).consoleLogs t = st.consoleLogs t ∧
      (onTabRemoved tabId st).animations t = st.animations t) ∧
    (onTabRemoved tabId st).extensionErrorStore = st.extensionErrorStore := by
  by_cases hs : (st.debuggerAttached tabId).isSome
  · refine ⟨?_, ?_, ?_, ?_, ?_, ?_⟩
    · simp [onTabRemoved, hs]
    · simp [onTabRemoved, hs]
    · simp [onTabRemoved, hs]
    · simp [onTabRemoved, hs]
    · intro t ht
      refine ⟨?_, ?_, ?_, ?_⟩ <;> simp [onTabRemoved, hs, ht]
    · simp [onTabRemoved, hs]
  · have hnone : st.debuggerAttached tabId = none :=
      Option.not_isSome_iff_eq_none.mp hs
    refine ⟨?_, ?_, ?_, ?_, ?_, ?_⟩
    · simp [onTabRemoved, hs, hnone]
    · simp [onTabRemoved, hs]
    · simp [onTabRemoved, hs]
    · simp [onTabRemoved, hs]
    · intro t ht
      refine ⟨?_, ?_, ?_, ?_⟩ <;> simp [onTabRemoved, hs, ht]
    · simp [onTabRemoved, hs]

/-- Witness for `tab_close_purges_exactly_tab_state` on a concrete state
with tabs 3 and 4 populated and one extension entry. -/
theorem tab_close_purges_exactly_tab_state_witness :
    (onTabRemoved 3
      { debuggerAttached := fun k => if k = 3 then some { attached := true, domains := [] } else none,
        networkRequests := fun k => if k = 3 ∨ k = 4 then some ["req"] else none,
        consoleLogs := fun k => if k = 4 then some ["log"] else none,
        animations := fun _ => none,
        extensionErrorStore := fun e =>
          if e = "abcdef" then some { errors := ["boom"], console := [], tabId := 3 } else none
        }).networkRequests 3 = none ∧
    (onTabRemoved 3
      { debuggerAttached := fun k => if k = 3 then some { attached := true, domains := [] } else none,
        networkRequests := fun k => if k = 3 ∨ k = 4 then some ["req"] else none,
        consoleLogs := fun k => if k = 4 then some ["log"] else none,
        animations := fun _ => none,
        extensionErrorStore := fun e =>
          if e = "abcdef" then some { errors := ["boom"], console := [], tabId := 3 } else none
        }).networkRequests 4 = some ["req"] ∧
    (onTabRemoved 3
      { debuggerAttached := fun k => if k = 3 then some { attached := true, domains := [] } else none,
        networkRequests := fun k => if k = 3 ∨ k = 4 then some ["req"] else none,
        consoleLogs := fun k => if k = 4 then some ["log"] else none,
        animations := fun _ => none,
        extensionErrorStore := fun e =>
          if e = "abcdef" then some { errors := ["boom"], console := [], tabId := 3 } else none
        }).extensionErrorStore "abcdef"
      = some { errors := ["boom"], console := [], tabId := 3 } := by
  refine ⟨(tab_close_purges_exactly_tab_state _ 3).2.1, ?_, ?_⟩
  · exact ((tab_close_purges_exactly_tab_state _ 3).2.2.2.2.1 4 (by decide)).2.1.trans (by decide)
  · exact congrFun ((tab_close_purges_exactly_tab_state _ 3).2.2.2.2.2) "abcdef"
